import Mathlib

/-!
Verification of the FreeNAS CLI pipeline-command layer
(src/freenas/cli/commands.py).

This file shallowly embeds the pipe commands (`search`, `exclude`, `find`,
`select`, `sort`, `limit`, `older_than`, `newer_than`, `tail`), the
`map_opargs` helper, the `source` batch command, and the session-state
builtins `top` and `alias`, and proves the specified properties about them.

Values flowing through the pipeline are Python objects; we embed the subset
that the commands inspect: None, strings, integers, booleans.  Rows of a
tabular result are Python dicts, embedded as association lists.
-/

namespace FreenasCli

/-- A Python value as it flows through the pipeline: None, a string, an
integer or a boolean. -/
inductive Value where
  | vnone
  | str (s : String)
  | num (n : Int)
  | bool (b : Bool)
deriving DecidableEq, Repr

/-- The declared type tag of a property mapping (freenas.cli.output.ValueType,
only the tag itself is relevant here: it is passed to the value-coercion
function). -/
inductive ValueType where
  | string
  | number
  | boolean
  | set
  | dict
  | size
  | time
  | enum
deriving DecidableEq, Repr

/-- A row of a tabular result: a Python dict from column accessor to value. -/
abbrev Row := List (String × Value)

/-- Python dict lookup `row[k]` returning `none` when the key is absent. -/
def rowLookup : Row → String → Option Value
  | [], _ => none
  | (k, v) :: rest, q => if k = q then some v else rowLookup rest q

/-- Python `row.get(k)`: dict lookup defaulting to None. -/
def rowGet (r : Row) (k : String) : Value :=
  (rowLookup r k).getD Value.vnone

/-- The fields of a property mapping that the pipe commands read: its
canonical name, its declared value type, and its list-visibility flag
(`x.list` in the source). -/
structure PropertyMapping where
  name : String
  type : ValueType
  list : Bool
deriving DecidableEq, Repr

/-- The part of a namespace the filter commands consult: its ordered property
mappings (`ns.property_mappings` in the source). -/
structure CliNamespace where
  property_mappings : List PropertyMapping
deriving DecidableEq, Repr

/-- Modelled from the spec: `Namespace.get_mapping` lives in namespace.py,
outside the given sources; per the data model (property-mapping names are
unique within a namespace) it is lookup by name among the namespace's
property mappings. -/
def CliNamespace.get_mapping (ns : CliNamespace) (k : String) :
    Option PropertyMapping :=
  ns.property_mappings.find? (fun m => m.name = k)

/-- Modelled from the spec: `Namespace.has_property` (namespace.py, outside
the given sources) tests whether a property mapping with the given name
exists. -/
def CliNamespace.has_property (ns : CliNamespace) (k : String) : Bool :=
  (ns.get_mapping k).isSome

/-- A mapped comparison triple (property name, operator, coerced value). -/
abbrev Triple := String × String × Value

/-- An operator-arg as delivered by the parser: (key, operator, raw value). -/
abbrev OpArg := String × String × Value

/-- The distinct failures raised by the embedded commands (all are
`CommandException` in the source; the constructors record the data carried
by the respective messages).  `unknownProperty` is the spec's
UnknownPropertyError: it records the offending key and the listed valid
property names.  `arityError` is the spec's ArityError raised by `select`. -/
inductive CmdError where
  | unknownProperty (key : String) (valid : List String)
  | invalidKwargs
  | invalidArgs
  | arityError
  | noFilename
  | fileMissing (f : String)
  | fileUndecodable (f : String)
  | evalFailed (f : String)
deriving DecidableEq, Repr

/-- Embedding of `map_opargs(opargs, context)` (commands.py lines
1195-1209), relative to a namespace `ns` (the source's `context.pipe_cwd`)
and a coercion function `rv` standing for `read_value` (defined in
output.py, outside the given sources, so we abstract over it).  Each oparg
whose key names a property is mapped to (mapping.name, op, rv value
mapping.type); the first key that is not a property raises, with the names
of the list-visible mappings in the message. -/
def mapOpargs (ns : CliNamespace) (rv : Value → ValueType → Value) :
    List OpArg → Except CmdError (List Triple)
  | [] => .ok []
  | (k, o, v) :: rest =>
    match ns.get_mapping k with
    | some m =>
      match mapOpargs ns rv rest with
      | .ok ts => .ok ((m.name, o, rv v m.type) :: ts)
      | .error e => .error e
    | none =>
      .error (.unknownProperty k
        ((ns.property_mappings.filter (fun x => x.list)).map
          (fun x => x.name)))

/-- One element of a serialized filter list: either a bare comparison triple
or the `('nor', (triples...))` negation combinator that `exclude`
produces. -/
inductive FilterTerm where
  | cond (t : Triple)
  | nor (ts : List Triple)
deriving DecidableEq, Repr

/-- The serialized query fragment returned by a filter stage: the value
under the "filter" key of the returned dict. -/
inductive SerializeResult where
  | filter (ts : List FilterTerm)
deriving DecidableEq, Repr

/-- Embedding of `SearchPipeCommand.serialize_filter` (commands.py lines
1225-1238): map the opargs (which raises on an unknown property), then
reject any keyword or positional arguments, then return the mapped triples
as the filter. -/
def searchSerializeFilter (ns : CliNamespace) (rv : Value → ValueType → Value)
    (args : List Value) (kwargs : List (String × Value))
    (opargs : List OpArg) : Except CmdError SerializeResult :=
  match mapOpargs ns rv opargs with
  | .error e => .error e
  | .ok mapped =>
    if kwargs.length > 0 then .error .invalidKwargs
    else if args.length > 0 then .error .invalidArgs
    else .ok (.filter (mapped.map FilterTerm.cond))

/-- Embedding of `ExcludePipeCommand.serialize_filter` (commands.py lines
1347-1364): same argument checks as `search`, but each mapped triple `i` is
wrapped individually as `('nor', (i,))` in the result list. -/
def excludeSerializeFilter (ns : CliNamespace) (rv : Value → ValueType → Value)
    (args : List Value) (kwargs : List (String × Value))
    (opargs : List OpArg) : Except CmdError SerializeResult :=
  match mapOpargs ns rv opargs with
  | .error e => .error e
  | .ok mapped =>
    if kwargs.length > 0 then .error .invalidKwargs
    else if args.length > 0 then .error .invalidArgs
    else .ok (.filter (mapped.map (fun i => FilterTerm.nor [i])))

/-- Concrete namespace used to witness the theorems: a single list-visible
property named "name" of string type. -/
def wNS : CliNamespace :=
  ⟨[{ name := "name", type := ValueType.string, list := true }]⟩

/-- Concrete coercion function used to witness the theorems: the identity
coercion. -/
def wRV : Value → ValueType → Value := fun v _ => v

/-- C1: for every list of operator-args that maps successfully, the exclude
pipe command serializes its filter as the list of the mapped triples each
wrapped individually in a 'nor' combinator, in order. -/
theorem exclude_wraps_each_triple (ns : CliNamespace)
    (rv : Value → ValueType → Value) (opargs : List OpArg) (ts : List Triple)
    (h : mapOpargs ns rv opargs = .ok ts) :
    excludeSerializeFilter ns rv [] [] opargs =
      .ok (.filter (ts.map (fun i => FilterTerm.nor [i]))) := by
  simp [excludeSerializeFilter, h]

/-- Witness for C1 at a concrete namespace and oparg list. -/
theorem exclude_wraps_each_triple_witness :
    mapOpargs wNS wRV [("name", "==", Value.str "root")] =
      .ok [("name", "==", Value.str "root")] ∧
    excludeSerializeFilter wNS wRV [] [] [("name", "==", Value.str "root")] =
      .ok (.filter [FilterTerm.nor [("name", "==", Value.str "root")]]) :=
  ⟨by rfl,
   exclude_wraps_each_triple wNS wRV [("name", "==", Value.str "root")]
     [("name", "==", Value.str "root")] (by rfl)⟩

/-- Helper: mapping a list of opargs whose first unknown key is `k` fails
with the unknown-property error for `k`, listing the list-visible mapping
names. -/
theorem mapOpargs_unknown (ns : CliNamespace) (rv : Value → ValueType → Value)
    (pre post : List OpArg) (k o : String) (v : Value)
    (hpre : ∀ x ∈ pre, ns.has_property x.1 = true)
    (hk : ns.has_property k = false) :
    mapOpargs ns rv (pre ++ (k, o, v) :: post) =
      .error (.unknownProperty k
        ((ns.property_mappings.filter (fun x => x.list)).map
          (fun x => x.name))) := by
  induction pre with
  | nil =>
    have hnone : ns.get_mapping k = none := by
      simpa [CliNamespace.has_property, Option.isSome_iff_exists] using hk
    simp [mapOpargs, hnone]
  | cons hd tl ih =>
    obtain ⟨k0, o0, v0⟩ := hd
    have hhd : ns.has_property k0 = true := hpre _ (List.mem_cons_self _ _)
    obtain ⟨m, hm⟩ : ∃ m, ns.get_mapping k0 = some m := by
      simpa [CliNamespace.has_property, Option.isSome_iff_exists] using hhd
    have htl := ih (fun x hx => hpre x (List.mem_cons_of_mem _ hx))
    simp [mapOpargs, hm, htl]

/-- C5: an operator-arg whose key is not a property of the namespace makes
both the search and the exclude filter serialization fail with the
unknown-property error listing exactly the names of the list-visible
property mappings; no filter is produced. -/
theorem unknown_property_rejected (ns : CliNamespace)
    (rv : Value → ValueType → Value) (args : List Value)
    (kwargs : List (String × Value)) (pre post : List OpArg)
    (k o : String) (v : Value)
    (hpre : ∀ x ∈ pre, ns.has_property x.1 = true)
    (hk : ns.has_property k = false) :
    searchSerializeFilter ns rv args kwargs (pre ++ (k, o, v) :: post) =
      .error (.unknownProperty k
        ((ns.property_mappings.filter (fun x => x.list)).map
          (fun x => x.name))) ∧
    excludeSerializeFilter ns rv args kwargs (pre ++ (k, o, v) :: post) =
      .error (.unknownProperty k
        ((ns.property_mappings.filter (fun x => x.list)).map
          (fun x => x.name))) := by
  have h := mapOpargs_unknown ns rv pre post k o v hpre hk
  constructor
  · simp [searchSerializeFilter, h]
  · simp [excludeSerializeFilter, h]

/-- Witness for C5: the key "bogus" is not a property of the witness
namespace, whose sole list-visible mapping is named "name". -/
theorem unknown_property_rejected_witness :
    (∀ x ∈ ([] : List OpArg), wNS.has_property x.1 = true) ∧
    wNS.has_property "bogus" = false ∧
    searchSerializeFilter wNS wRV [] [] [("bogus", "==", Value.str "x")] =
      .error (.unknownProperty "bogus" ["name"]) ∧
    excludeSerializeFilter wNS wRV [] [] [("bogus", "==", Value.str "x")] =
      .error (.unknownProperty "bogus" ["name"]) := by
  refine ⟨by simp, by decide, ?_⟩
  have h := unknown_property_rejected wNS wRV [] [] [] []
    "bogus" "==" (Value.str "x") (by simp) (by decide)
  simpa using h

/-- Decides whether a serialization attempt produced a filter (as opposed to
raising). -/
def serializeOk (r : Except CmdError SerializeResult) : Bool :=
  match r with
  | .ok _ => true
  | .error _ => false

/-- C10: any positional or keyword argument makes both search and exclude
filter serialization fail; no filter is produced. -/
theorem args_kwargs_rejected (ns : CliNamespace)
    (rv : Value → ValueType → Value) (args : List Value)
    (kwargs : List (String × Value)) (opargs : List OpArg)
    (h : args ≠ [] ∨ kwargs ≠ []) :
    serializeOk (searchSerializeFilter ns rv args kwargs opargs) = false ∧
    serializeOk (excludeSerializeFilter ns rv args kwargs opargs) = false := by
  have hak : kwargs.length > 0 ∨ (kwargs.length = 0 ∧ args.length > 0) := by
    rcases h with h | h
    · rcases Nat.eq_zero_or_pos kwargs.length with hz | hp
      · exact Or.inr ⟨hz, List.length_pos.mpr h⟩
      · exact Or.inl hp
    · exact Or.inl (List.length_pos.mpr h)
  constructor
  · cases hmo : mapOpargs ns rv opargs with
    | error e => simp [searchSerializeFilter, hmo, serializeOk]
    | ok mapped =>
      rcases hak with hp | ⟨hz, hp⟩
      · simp [searchSerializeFilter, hmo, hp, serializeOk]
      · simp [searchSerializeFilter, hmo, hz, hp, serializeOk]
  · cases hmo : mapOpargs ns rv opargs with
    | error e => simp [excludeSerializeFilter, hmo, serializeOk]
    | ok mapped =>
      rcases hak with hp | ⟨hz, hp⟩
      · simp [excludeSerializeFilter, hmo, hp, serializeOk]
      · simp [excludeSerializeFilter, hmo, hz, hp, serializeOk]

/-- Witness for C10 at a concrete positional argument. -/
theorem args_kwargs_rejected_witness :
    ([Value.str "stray"] ≠ ([] : List Value) ∨
      ([] : List (String × Value)) ≠ []) ∧
    serializeOk (searchSerializeFilter wNS wRV [Value.str "stray"] []
      [("name", "==", Value.str "root")]) = false ∧
    serializeOk (excludeSerializeFilter wNS wRV [Value.str "stray"] []
      [("name", "==", Value.str "root")]) = false := by
  refine ⟨Or.inl (by simp), ?_⟩
  exact args_kwargs_rejected wNS wRV [Value.str "stray"] []
    [("name", "==", Value.str "root")] (Or.inl (by simp))

/-- A column of a tabular result: display label and row accessor key
(freenas.cli.output.Table.Column; output.py is outside the given sources,
so only the shape the commands construct and inspect is embedded). -/
structure TableCol where
  label : String
  accessor : String
deriving DecidableEq, Repr

/-- A tabular result: columns plus row data (freenas.cli.output.Table). -/
structure Table where
  columns : List TableCol
  data : List Row
deriving DecidableEq, Repr

/-- The input a pipe command's `run` receives: a tabular result, a bare
value, or Python None (absent). -/
inductive PipeData where
  | table (t : Table)
  | scalar (v : Value)
  | absent
deriving DecidableEq, Repr

/-- Embedding of `SearchPipeCommand.run` (commands.py lines 1222-1223):
returns its input unchanged. -/
def searchRun (args : List Value) (kwargs : List (String × Value))
    (opargs : List OpArg) (input : PipeData) : PipeData :=
  input

/-- Embedding of `ExcludePipeCommand.run` (commands.py lines 1344-1345):
returns its input unchanged. -/
def excludeRun (args : List Value) (kwargs : List (String × Value))
    (opargs : List OpArg) (input : PipeData) : PipeData :=
  input

/-- Embedding of `SortPipeCommand.run` (commands.py lines 1380-1381):
returns its input unchanged. -/
def sortRun (args : List Value) (kwargs : List (String × Value))
    (opargs : List OpArg) (input : PipeData) : PipeData :=
  input

/-- Embedding of `LimitPipeCommand.run` (commands.py lines 1405-1406):
returns its input unchanged. -/
def limitRun (args : List Value) (kwargs : List (String × Value))
    (opargs : List OpArg) (input : PipeData) : PipeData :=
  input

/-- Embedding of `OlderThanPipeCommand.run` (commands.py lines 1273-1274):
returns its input unchanged. -/
def olderThanRun (args : List Value) (kwargs : List (String × Value))
    (opargs : List OpArg) (input : PipeData) : PipeData :=
  input

/-- Embedding of `NewerThanPipeCommand.run` (commands.py lines 1295-1296):
returns its input unchanged. -/
def newerThanRun (args : List Value) (kwargs : List (String × Value))
    (opargs : List OpArg) (input : PipeData) : PipeData :=
  input

/-- Embedding of `TailPipeCommand.run` (commands.py lines 1314-1315):
returns its input unchanged. -/
def tailRun (args : List Value) (kwargs : List (String × Value))
    (opargs : List OpArg) (input : PipeData) : PipeData :=
  input

/-- C6: the client-side `run` of every server-side-foldable filter stage
(search, exclude, sort, limit, older_than, newer_than, tail) is the
identity on its input: the stage filters only through the query it
serializes, never by iterating client-side over fetched rows. -/
theorem foldable_stage_run_identity (args : List Value)
    (kwargs : List (String × Value)) (opargs : List OpArg)
    (input : PipeData) :
    searchRun args kwargs opargs input = input ∧
    excludeRun args kwargs opargs input = input ∧
    sortRun args kwargs opargs input = input ∧
    limitRun args kwargs opargs input = input ∧
    olderThanRun args kwargs opargs input = input ∧
    newerThanRun args kwargs opargs input = input ∧
    tailRun args kwargs opargs input = input :=
  ⟨rfl, rfl, rfl, rfl, rfl, rfl, rfl⟩

/-- Embedding of `FindPipeCommand.run` (commands.py lines 1250-1258),
relative to the primary-key getter `pk` of the current namespace
(`ns.primary_key.do_get`; the property-mapping getter lives in
namespace.py, outside the given sources, so we abstract over it, with
`none` standing for a raised KeyError).  On a tabular input the first
row's primary-key value is returned, with StopIteration (empty data) and
KeyError mapped to None; on any other input the method falls through and
returns None. -/
def findRun (pk : Row → Option Value) (input : PipeData) : Option Value :=
  match input with
  | .table t =>
    match t.data with
    | [] => none
    | first :: _ => pk first
  | _ => none

/-- C3: find returns the first row's primary-key value on a non-empty
tabular input, and an absent result (no error) on an empty or non-tabular
input. -/
theorem find_first_primary_key (pk : Row → Option Value)
    (cols : List TableCol) (r : Row) (rs : List Row) (v : Value) :
    findRun pk (.table ⟨cols, r :: rs⟩) = pk r ∧
    findRun pk (.table ⟨cols, []⟩) = none ∧
    findRun pk (.scalar v) = none ∧
    findRun pk .absent = none :=
  ⟨rfl, rfl, rfl, rfl⟩

/-- Embedding of `SelectPipeCommand.run` (commands.py lines 1420-1427):
anything but exactly one field name raises; a tabular input is projected
to a single Result column holding `row.get(field)` for each row; any other
input falls through and returns None. -/
def selectRun (args : List String) (input : PipeData) :
    Except CmdError PipeData :=
  match args with
  | [field] =>
    match input with
    | .table t =>
      .ok (.table
        { columns := [{ label := "Result", accessor := "result" }],
          data := t.data.map (fun x => [("result", rowGet x field)]) })
    | _ => .ok .absent
  | _ => .error .arityError

/-- C4: select raises an arity error unless given exactly one field name;
on a tabular input with one field name it projects that field of each row
into a single-column result with one row per input row. -/
theorem select_arity_and_projection (args : List String) (input : PipeData)
    (field : String) (t : Table) (h : args.length ≠ 1) :
    selectRun args input = .error .arityError ∧
    selectRun [field] (.table t) =
      .ok (.table
        { columns := [{ label := "Result", accessor := "result" }],
          data := t.data.map (fun x => [("result", rowGet x field)]) }) := by
  constructor
  · match args, h with
    | [], _ => rfl
    | _ :: _ :: _, _ => rfl
    | [_], h => exact absurd rfl h
  · rfl

/-- Witness for C4: zero field names raise, and projecting "name" out of a
two-row table yields the two name values under a single Result column. -/
theorem select_arity_and_projection_witness :
    ([] : List String).length ≠ 1 ∧
    selectRun [] (.scalar (Value.num 7)) = .error .arityError ∧
    selectRun ["name"]
      (.table ⟨[⟨"Name", "name"⟩],
        [[("name", Value.str "root")], [("name", Value.str "guest")]]⟩) =
      .ok (.table ⟨[⟨"Result", "result"⟩],
        [[("result", Value.str "root")], [("result", Value.str "guest")]]⟩) := by
  refine ⟨by decide, ?_⟩
  have h := select_arity_and_projection [] (.scalar (Value.num 7)) "name"
    ⟨[⟨"Name", "name"⟩],
      [[("name", Value.str "root")], [("name", Value.str "guest")]]⟩
    (by decide)
  simpa [rowGet, rowLookup] using h

/-- C9: select with exactly one field name returns an absent result (not an
error, not a table) on a non-tabular input. -/
theorem select_non_tabular_absent (field : String) (v : Value) :
    selectRun [field] (.scalar v) = .ok .absent ∧
    selectRun [field] .absent = .ok .absent :=
  ⟨rfl, rfl⟩

/-- Modelled from the spec: the server-side evaluation of a single
comparison operator on a row value (the matcher lives in the backend query
engine, outside the given sources).  `==` is equality with the stored
value, `!=` its negation; a key absent from the row matches nothing. -/
def evalOp (o : String) (x : Option Value) (v : Value) : Bool :=
  if o = "==" then x == some v
  else if o = "!=" then !(x == some v)
  else false

/-- Modelled from the spec: evaluation of one comparison triple against a
row. -/
def evalCond (row : Row) (t : Triple) : Bool :=
  evalOp t.2.1 (rowLookup row t.1) t.2.2

/-- Modelled from the spec: evaluation of one filter term against a row;
the 'nor' combinator holds exactly when none of its wrapped triples
match. -/
def evalTerm (row : Row) : FilterTerm → Bool
  | .cond t => evalCond row t
  | .nor ts => !(ts.any (evalCond row))

/-- Modelled from the spec: a serialized filter list is a conjunction of
its terms. -/
def evalFilter (row : Row) (ts : List FilterTerm) : Bool :=
  ts.all (evalTerm row)

/-- A single 'nor'-wrapped triple evaluates to the negation of the bare
triple. -/
theorem evalFilter_nor_single (row : Row) (t : Triple) :
    evalFilter row [FilterTerm.nor [t]] = !evalFilter row [FilterTerm.cond t] := by
  simp [evalFilter, evalTerm]

/-- C2: for a single `==` comparison, the predicate search serializes (the
bare triple) and the predicate exclude serializes (the 'nor'-wrapped
triple) are complementary on every row, so filtering the same row set by
each yields disjoint parts whose concatenation is a permutation of the
original set. -/
theorem search_exclude_partition (ns : CliNamespace)
    (rv : Value → ValueType → Value) (k : String) (v : Value)
    (p o : String) (w : Value) (row : Row) (rows : List Row)
    (h : mapOpargs ns rv [(k, "==", v)] = .ok [(p, o, w)]) :
    searchSerializeFilter ns rv [] [] [(k, "==", v)] =
      .ok (.filter [FilterTerm.cond (p, o, w)]) ∧
    excludeSerializeFilter ns rv [] [] [(k, "==", v)] =
      .ok (.filter [FilterTerm.nor [(p, o, w)]]) ∧
    evalFilter row [FilterTerm.nor [(p, o, w)]] =
      !evalFilter row [FilterTerm.cond (p, o, w)] ∧
    (rows.filter (fun r => evalFilter r [FilterTerm.cond (p, o, w)])).Disjoint
      (rows.filter (fun r => evalFilter r [FilterTerm.nor [(p, o, w)]])) ∧
    (rows.filter (fun r => evalFilter r [FilterTerm.cond (p, o, w)]) ++
      rows.filter (fun r => evalFilter r [FilterTerm.nor [(p, o, w)]])).Perm
      rows := by
  refine ⟨by simp [searchSerializeFilter, h],
    by simp [excludeSerializeFilter, h],
    evalFilter_nor_single row (p, o, w), ?_, ?_⟩
  · intro a ha hb
    have h1 := (List.mem_filter.mp ha).2
    have h2 := (List.mem_filter.mp hb).2
    rw [evalFilter_nor_single, h1] at h2
    simp at h2
  · have hq : rows.filter (fun r => evalFilter r [FilterTerm.nor [(p, o, w)]]) =
        rows.filter (fun r => !evalFilter r [FilterTerm.cond (p, o, w)]) :=
      List.filter_congr (fun r _ => evalFilter_nor_single r (p, o, w))
    rw [hq]
    exact List.filter_append_perm _ rows

/-- Witness for C2 at the witness namespace, key "name", value "root", and
a two-row set containing one matching and one non-matching row. -/
theorem search_exclude_partition_witness :
    mapOpargs wNS wRV [("name", "==", Value.str "root")] =
      .ok [("name", "==", Value.str "root")] ∧
    (searchSerializeFilter wNS wRV [] [] [("name", "==", Value.str "root")] =
      .ok (.filter [FilterTerm.cond ("name", "==", Value.str "root")]) ∧
    excludeSerializeFilter wNS wRV [] [] [("name", "==", Value.str "root")] =
      .ok (.filter [FilterTerm.nor [("name", "==", Value.str "root")]]) ∧
    evalFilter [("name", Value.str "root")]
      [FilterTerm.nor [("name", "==", Value.str "root")]] =
      !evalFilter [("name", Value.str "root")]
        [FilterTerm.cond ("name", "==", Value.str "root")] ∧
    (List.filter
      (fun r => evalFilter r [FilterTerm.cond ("name", "==", Value.str "root")])
      [[("name", Value.str "root")], [("name", Value.str "guest")]]).Disjoint
      (List.filter
        (fun r => evalFilter r [FilterTerm.nor [("name", "==", Value.str "root")]])
        [[("name", Value.str "root")], [("name", Value.str "guest")]]) ∧
    (List.filter
      (fun r => evalFilter r [FilterTerm.cond ("name", "==", Value.str "root")])
      [[("name", Value.str "root")], [("name", Value.str "guest")]] ++
      List.filter
        (fun r => evalFilter r [FilterTerm.nor [("name", "==", Value.str "root")]])
        [[("name", Value.str "root")], [("name", Value.str "guest")]]).Perm
      [[("name", Value.str "root")], [("name", Value.str "guest")]]) :=
  ⟨by rfl,
   search_exclude_partition wNS wRV "name" (Value.str "root") "name" "=="
     (Value.str "root") [("name", Value.str "root")]
     [[("name", Value.str "root")], [("name", Value.str "guest")]] (by rfl)⟩

/-- Outcome of processing one script file named by `source`: the file may
be missing (`os.path.isfile` false), fail to decode as UTF-8, fail while
its commands are evaluated, or succeed. -/
inductive FileOutcome where
  | missing
  | undecodable
  | evalFails
  | ok
deriving DecidableEq, Repr

/-- Embedding of the loop body of `SourceCommand.run` (commands.py lines
953-965), instrumented with the list of files actually opened.  `env`
gives each filename's outcome; a missing file raises before being opened,
an undecodable file raises from the decode, and a failing evaluation
raises out of `context.eval_block` (eval_block is modelled from the spec:
it lives in the REPL module, outside the given sources, and per the spec a
failing command inside a file aborts the batch).  Any raise stops the
loop. -/
def sourceProcess (env : String → FileOutcome) :
    List String → List String × Option CmdError
  | [] => ([], none)
  | f :: rest =>
    match env f with
    | .missing => ([], some (.fileMissing f))
    | .undecodable => ([f], some (.fileUndecodable f))
    | .evalFails => ([f], some (.evalFailed f))
    | .ok =>
      let r := sourceProcess env rest
      (f :: r.1, r.2)

/-- Embedding of `SourceCommand.run` (commands.py lines 949-965): an empty
argument list raises; otherwise the files are processed in order. -/
def sourceRun (env : String → FileOutcome) (args : List String) :
    List String × Option CmdError :=
  match args with
  | [] => ([], some .noFilename)
  | _ => sourceProcess env args

/-- Processing a list that starts with successfully evaluated files opens
those files and continues with the rest. -/
theorem sourceProcess_ok_prefix (env : String → FileOutcome)
    (pre rest : List String) (hpre : ∀ f ∈ pre, env f = .ok) :
    sourceProcess env (pre ++ rest) =
      (pre ++ (sourceProcess env rest).1, (sourceProcess env rest).2) := by
  induction pre with
  | nil => simp
  | cons hd tl ih =>
    have hhd : env hd = .ok := hpre _ (List.mem_cons_self _ _)
    have htl := ih (fun f hf => hpre f (List.mem_cons_of_mem _ hf))
    simp [sourceProcess, hhd, htl]

/-- C7: source processes its files in the order given and aborts the whole
batch at the first failing entry; the files opened are exactly the
successful ones before it (plus the failing file itself when it exists but
fails to decode or evaluate), so no file after the failing one is opened
or evaluated. -/
theorem source_aborts_at_first_failure (env : String → FileOutcome)
    (pre post : List String) (bad : String)
    (hpre : ∀ f ∈ pre, env f = .ok) :
    (env bad = .missing →
      sourceRun env (pre ++ bad :: post) = (pre, some (.fileMissing bad))) ∧
    (env bad = .undecodable →
      sourceRun env (pre ++ bad :: post) =
        (pre ++ [bad], some (.fileUndecodable bad))) ∧
    (env bad = .evalFails →
      sourceRun env (pre ++ bad :: post) =
        (pre ++ [bad], some (.evalFailed bad))) := by
  have hrun : sourceRun env (pre ++ bad :: post) =
      sourceProcess env (pre ++ bad :: post) := by
    cases pre with
    | nil => rfl
    | cons a l => rfl
  have hsp := sourceProcess_ok_prefix env pre (bad :: post) hpre
  refine ⟨fun hb => ?_, fun hb => ?_, fun hb => ?_⟩ <;>
    simp [hrun, hsp, sourceProcess, hb]

/-- Witness for C7: with script "a" succeeding, "b" failing during
evaluation and "c" after it, only "a" and "b" are opened and the batch
aborts with the evaluation failure for "b". -/
theorem source_aborts_at_first_failure_witness :
    (∀ f ∈ ["a"], (fun g => if g = "a" then FileOutcome.ok
      else if g = "b" then FileOutcome.evalFails
      else FileOutcome.missing) f = FileOutcome.ok) ∧
    ((fun g => if g = "a" then FileOutcome.ok
      else if g = "b" then FileOutcome.evalFails
      else FileOutcome.missing) "b" = FileOutcome.evalFails →
      sourceRun (fun g => if g = "a" then FileOutcome.ok
        else if g = "b" then FileOutcome.evalFails
        else FileOutcome.missing) (["a"] ++ "b" :: ["c"]) =
        (["a"] ++ ["b"], some (.evalFailed "b"))) :=
  ⟨by decide,
   (source_aborts_at_first_failure
     (fun g => if g = "a" then FileOutcome.ok
       else if g = "b" then FileOutcome.evalFails
       else FileOutcome.missing) ["a"] ["c"] "b" (by decide)).2.2⟩

/-- The process-wide session state the builtin commands write: the
navigation path (`context.ml.path`) and the alias table
(`context.ml.aliases`, a Python dict embedded as an association list with
in-place update). -/
structure Session where
  path : List CliNamespace
  aliases : List (String × String)
deriving DecidableEq, Repr

/-- Embedding of `TopCommand.run` (commands.py lines 881-882): the
navigation path is reset to the singleton root path. -/
def topRun (root : CliNamespace) (s : Session) : Session :=
  { s with path := [root] }

/-- Python dict assignment `aliases[k] = v` on an association list: update
the first entry with key `k` in place, or append a fresh entry. -/
def setAlias : List (String × String) → String → String → List (String × String)
  | [], k, v => [(k, v)]
  | (k0, v0) :: rest, k, v =>
    if k0 = k then (k, v) :: rest else (k0, v0) :: setAlias rest k v

/-- Python dict lookup `aliases[k]` on an association list. -/
def lookupAlias : List (String × String) → String → Option String
  | [], _ => none
  | (k0, v0) :: rest, k => if k0 = k then some v0 else lookupAlias rest k

/-- The loop `for name, value in kwargs.items(): aliases[name] = value` of
`AliasCommand.run`. -/
def foldSetAlias (al ks : List (String × String)) : List (String × String) :=
  ks.foldl (fun a kv => setAlias a kv.1 kv.2) al

/-- The table `AliasCommand.run` returns when called without arguments. -/
def aliasTable (al : List (String × String)) : Table :=
  { columns := [{ label := "Alias name", accessor := "label" },
                { label := "Alias value", accessor := "value" }],
    data := al.map (fun kv =>
      [("label", Value.str kv.1), ("value", Value.str kv.2)]) }

/-- Embedding of `AliasCommand.run` (commands.py lines 403-412): without
keyword arguments it returns the alias table and leaves the session
unchanged; otherwise it writes each name=value pair into the alias
table. -/
def aliasRun (kwargs : List (String × String)) (s : Session) :
    Session × Option Table :=
  match kwargs with
  | [] => (s, some (aliasTable s.aliases))
  | _ => ({ s with aliases := foldSetAlias s.aliases kwargs }, none)

/-- Writing a key its current value back leaves the alias list unchanged. -/
theorem setAlias_of_lookup (al : List (String × String)) (k v : String)
    (h : lookupAlias al k = some v) : setAlias al k v = al := by
  induction al with
  | nil => simp [lookupAlias] at h
  | cons hd tl ih =>
    obtain ⟨k0, v0⟩ := hd
    by_cases hk : k0 = k
    · subst hk
      simp [lookupAlias] at h
      simp [setAlias, h]
    · simp [lookupAlias, hk] at h
      simp [setAlias, hk, ih h]

/-- Looking up the key just written yields the written value. -/
theorem lookupAlias_setAlias_self (al : List (String × String)) (k v : String) :
    lookupAlias (setAlias al k v) k = some v := by
  induction al with
  | nil => simp [setAlias, lookupAlias]
  | cons hd tl ih =>
    obtain ⟨k0, v0⟩ := hd
    by_cases hk : k0 = k
    · simp [setAlias, hk, lookupAlias]
    · simp [setAlias, hk, lookupAlias, ih]

/-- Writing one key does not change the value seen at another key. -/
theorem lookupAlias_setAlias_ne (al : List (String × String))
    (k0 v0 k : String) (h : k0 ≠ k) :
    lookupAlias (setAlias al k0 v0) k = lookupAlias al k := by
  induction al with
  | nil => simp [setAlias, lookupAlias, h]
  | cons hd tl ih =>
    obtain ⟨k1, v1⟩ := hd
    by_cases hk : k1 = k0
    · subst hk
      simp [setAlias, lookupAlias, h]
    · simp [setAlias, hk, lookupAlias, ih]

/-- A key not written by the loop keeps its prior value. -/
theorem lookupAlias_foldSetAlias_not_mem (ks : List (String × String))
    (al : List (String × String)) (k : String)
    (h : k ∉ ks.map Prod.fst) :
    lookupAlias (foldSetAlias al ks) k = lookupAlias al k := by
  induction ks generalizing al with
  | nil => rfl
  | cons hd tl ih =>
    simp only [List.map_cons, List.mem_cons] at h
    push_neg at h
    have := ih (setAlias al hd.1 hd.2) h.2
    simpa [foldSetAlias, List.foldl] using
      this.trans (lookupAlias_setAlias_ne al hd.1 hd.2 k (fun e => h.1 e.symm))

/-- After the loop, every written key reads back the written value (the
keys of a Python dict are distinct). -/
theorem lookupAlias_foldSetAlias_mem (ks : List (String × String))
    (al : List (String × String)) (k v : String)
    (hnd : (ks.map Prod.fst).Nodup) (hmem : (k, v) ∈ ks) :
    lookupAlias (foldSetAlias al ks) k = some v := by
  induction ks generalizing al with
  | nil => simp at hmem
  | cons hd tl ih =>
    simp only [List.map_cons, List.nodup_cons] at hnd
    rcases List.mem_cons.mp hmem with he | hm
    · subst he
      have : lookupAlias (foldSetAlias (setAlias al k v) tl) k =
          lookupAlias (setAlias al k v) k :=
        lookupAlias_foldSetAlias_not_mem tl (setAlias al k v) k hnd.1
      simpa [foldSetAlias, List.foldl, lookupAlias_setAlias_self] using this
    · have := ih (setAlias al hd.1 hd.2) hnd.2 hm
      simpa [foldSetAlias, List.foldl] using this

/-- Replaying writes that are already reflected in the table is a no-op. -/
theorem foldSetAlias_id (ks : List (String × String))
    (al : List (String × String))
    (h : ∀ kv ∈ ks, lookupAlias al kv.1 = some kv.2) :
    foldSetAlias al ks = al := by
  induction ks with
  | nil => rfl
  | cons hd tl ih =>
    have hhd := setAlias_of_lookup al hd.1 hd.2 (h hd (List.mem_cons_self _ _))
    have htl := ih (fun kv hkv => h kv (List.mem_cons_of_mem _ hkv))
    calc foldSetAlias al (hd :: tl)
        = foldSetAlias (setAlias al hd.1 hd.2) tl := by
          simp [foldSetAlias, List.foldl]
      _ = foldSetAlias al tl := by rw [hhd]
      _ = al := htl

/-- C8: the session-state builtins are idempotent under retry: running top
twice leaves the navigation path exactly as one run does, and running
alias with the same name=value pairs twice leaves the alias table exactly
as one run does. -/
theorem session_builtins_idempotent (root : CliNamespace) (s : Session)
    (kwargs : List (String × String))
    (h : (kwargs.map Prod.fst).Nodup) :
    topRun root (topRun root s) = topRun root s ∧
    (aliasRun kwargs (aliasRun kwargs s).1).1 = (aliasRun kwargs s).1 := by
  refine ⟨rfl, ?_⟩
  cases kwargs with
  | nil => rfl
  | cons hd tl =>
    have hfix : foldSetAlias (foldSetAlias s.aliases (hd :: tl)) (hd :: tl) =
        foldSetAlias s.aliases (hd :: tl) :=
      foldSetAlias_id (hd :: tl) (foldSetAlias s.aliases (hd :: tl))
        (fun kv hkv =>
          lookupAlias_foldSetAlias_mem (hd :: tl) s.aliases kv.1 kv.2 h hkv)
    simp [aliasRun, hfix]

/-- Witness for C8 at a concrete session and a single alias binding. -/
theorem session_builtins_idempotent_witness :
    ((([("us", "account user show")] : List (String × String)).map
      Prod.fst).Nodup) ∧
    (topRun wNS (topRun wNS ⟨[wNS], [("x", "1")]⟩) =
      topRun wNS ⟨[wNS], [("x", "1")]⟩ ∧
    (aliasRun [("us", "account user show")]
      (aliasRun [("us", "account user show")] ⟨[wNS], [("x", "1")]⟩).1).1 =
      (aliasRun [("us", "account user show")] ⟨[wNS], [("x", "1")]⟩).1) :=
  ⟨by decide,
   session_builtins_idempotent wNS ⟨[wNS], [("x", "1")]⟩
     [("us", "account user show")] (by decide)⟩

end FreenasCli
